import Mathlib

/-!
# MRCS Question Extractor — verification of the extraction pipeline

Shallow embedding of the extraction orchestration pipeline of the
MRCS-Question-Extractor backend (NestJS/TypeScript), covering:

* the Response Recovery Parser and question cleaning
  (`src/modules/extraction/ollama.service.ts`);
* the deduplication / merge engine and the per-page processor
  (`src/modules/extraction/extraction.processor.ts`);
* the job-lifecycle operations start / stop / continue
  (`src/modules/extraction/extraction.service.ts`, queue-backed variant).

JavaScript strings are modelled by Lean `String` (lengths agree on the
ASCII inputs used throughout), JS numbers by `ℚ`/`Int`/`Nat` as
appropriate, and exceptions by `Except`.  External collaborators
(the Ollama HTTP endpoint, `JSON.parse`, the regex engine, the record
store, the PDF text extractor) are uninterpreted functions gathered in
environment structures, so every theorem quantifies over all of their
behaviours.
-/

namespace MRCS

/-! ## JavaScript string primitives -/

/-- JS `\s` whitespace class, restricted to the ASCII whitespace
characters (the inputs of interest contain no Unicode spaces). -/
def isJsWs (c : Char) : Bool :=
  c = ' ' || c = '\t' || c = '\n' || c = '\r' || c = '\x0b' || c = '\x0c'

/-- Worker for `String.prototype.split(/\s+/)`: `acc` holds the
characters of the token being built (reversed).  A separator run closes
the current token; a leading or trailing run contributes an empty
token, exactly as the JS regex split does. -/
def splitWsAux : Bool → List Char → List Char → List (List Char)
  | _, acc, [] => [acc.reverse]
  | inRun, acc, c :: cs =>
    if isJsWs c then
      if inRun then splitWsAux true [] cs
      else acc.reverse :: splitWsAux true [] cs
    else splitWsAux false (c :: acc) cs

/-- JS `str.split(/\s+/)` (on ASCII input). -/
def splitWs (s : String) : List String :=
  (splitWsAux false [] s.data).map fun cs => String.mk cs

/-- JS `str.toLowerCase()`; agrees with the JS function on ASCII. -/
def jsLower (s : String) : String := String.mk (s.data.map Char.toLower)

/-- `startsWithL l pat`: `pat` is a prefix of `l`. -/
def startsWithL : List Char → List Char → Bool
  | _, [] => true
  | [], _ :: _ => false
  | c :: cs, p :: ps => c = p && startsWithL cs ps

/-- `containsSubL pat l`: `pat` occurs as a contiguous substring of
`l`; models JS `String.prototype.includes`. -/
def containsSubL (pat : List Char) : List Char → Bool
  | [] => startsWithL [] pat
  | c :: cs => startsWithL (c :: cs) pat || containsSubL pat cs

/-- JS `s.includes(pat)`. -/
def jsIncludes (s pat : String) : Bool := containsSubL pat.data s.data

/-- JS `s.trim()` (ASCII whitespace). -/
def jsTrim (s : String) : String :=
  String.mk ((s.data.dropWhile isJsWs).reverse.dropWhile isJsWs).reverse

/-- JS `s.substring(0, n)`. -/
def jsTake (s : String) (n : Nat) : String := String.mk (s.data.take n)

/-- JS `x || d` for an optional numeric field: `undefined` and `0` are
falsy and yield the default. -/
def jsOrNat (x : Option Nat) (d : Nat) : Nat :=
  match x with
  | none => d
  | some n => if n = 0 then d else n

/-- JS `x || d` on `Int` (`0` falsy). -/
def jsOrInt (x : Option Int) (d : Int) : Int :=
  match x with
  | none => d
  | some n => if n = 0 then d else n

/-! ## Controlled vocabulary
`DEFAULT_CATEGORIES` / `DEFAULT_INTAKES` from
`src/common/CONSTANTS/categories.constants.ts` and
`intakes.constants.ts` (only the `name` fields are consumed by the
extraction pipeline). -/

def categoryNames : List String :=
  ["anatomy-thorax", "anatomy-abdomen", "anatomy-superior-extremity",
   "anatomy-inferior-extremity", "anatomy-head-neck-brain", "physiology",
   "pathology", "microbiology", "biostatistics",
   "clinical-git-colorectal-abdomen", "clinical-hepatobiliary-pancreas",
   "clinical-urology", "clinical-orthopedics", "clinical-breast-endocrine",
   "clinical-ent", "clinical-skin", "clinical-vascular-surgery",
   "clinical-neurosurgery", "clinical-organ-transplantation",
   "clinical-pediatric-surgery", "clinical-perioperative-care",
   "clinical-post-operative-care", "clinical-surgical-emergency-trauma"]

def intakeNames : List String := ["january", "april-may", "september"]

/-! ## Token-overlap similarity
`calculateSimilarity` as written (identically) in
`extraction.processor.ts` and in the in-memory `extraction.service.ts`:

```ts
const words1 = str1.toLowerCase().split(/\s+/);
const words2 = str2.toLowerCase().split(/\s+/);
const commonWords = words1.filter((word) => words2.includes(word));
const totalWords = new Set([...words1, ...words2]).size;
return commonWords.length / totalWords;
```
-/

/-- Lower-cased whitespace tokenization of a stem. -/
def tokenize (s : String) : List String := splitWs (jsLower s)

/-- The token-overlap similarity used by the deduplication engine.
`commonWords` keeps the multiplicity of `str1`'s tokens; the
denominator is the number of distinct tokens of both stems. -/
def calculateSimilarity (str1 str2 : String) : ℚ :=
  let words1 := tokenize str1
  let words2 := tokenize str2
  let commonWords := words1.filter fun word => words2.contains word
  let totalWords := (words1 ++ words2).dedup.length
  (commonWords.length : ℚ) / (totalWords : ℚ)

/-! ## JSON values
Result type of `JSON.parse`, as far as the pipeline inspects it. -/

inductive Json where
  | null : Json
  | bool (b : Bool) : Json
  | num (q : ℚ) : Json
  | str (s : String) : Json
  | arr (elems : List Json) : Json
  | obj (fields : List (String × Json)) : Json

/-- JS property access `j[key]`; `none` models `undefined` (also for
non-object receivers, whose named properties are undefined). -/
def Json.getField : Json → String → Option Json
  | .obj fields, key => fields.lookup key
  | _, _ => none

/-- The five option letters, `['A', 'B', 'C', 'D', 'E']`. -/
def letters : List String := ["A", "B", "C", "D", "E"]

/-- One extracted question (interface `ExtractedQuestion` of
`ollama.service.ts`); `examYear` and `confidence` are JS numbers. -/
structure QuestionOptions where
  A : String
  B : String
  C : String
  D : String
  E : String
deriving DecidableEq

structure ExtractedQuestion where
  question : String
  options : QuestionOptions
  correctAnswer : String
  categories : List String
  examYear : ℚ
  intake : String
  explanation : String
  confidence : ℚ
deriving DecidableEq

/-- External collaborators and JS primitives used by `OllamaService`,
gathered as uninterpreted functions so that every theorem holds for all
of their behaviours:

* `generate` — `generateResponse` (the Ollama HTTP round-trip);
  `.error` models the call throwing (transport error, timeout, non-2xx,
  or the empty-response guard), `.ok` the returned response text.
* `jsonParse` — `JSON.parse`; `.error` models the `SyntaxError` throw.
* `matchCodeBlock` / `matchLazyArray` / `matchFlatArray` — the three
  regex strategies of `tryAlternativeJsonParsing` (fenced-code-block
  capture, lazy array capture, non-nested array capture); the result is
  the substring handed on (`match[1] || match[0]`).
* `matchObjectBlock` — the `/\{[\s\S]*\}/` match of
  `parseMissingOptionsResponse`.
* `repairMain` / `repairFallback` — the two pure string-rewriting
  passes of `cleanJsonString` (bracket trimming, trailing-comma
  removal, missing-comma insertion, quote re-escaping, option
  re-segmentation); they are built solely from `.replace`/`.substring`
  and cannot throw, so only the parse/catch skeleton around them is
  kept concrete.
* `promptExtract` / `promptMissing` — `buildExtractionPrompt` and
  `buildMissingOptionsPrompt`, pure string builders whose content only
  feeds `generate`. -/
structure OllamaEnv where
  generate : String → Except String String
  jsonParse : String → Except String Json
  matchCodeBlock : String → Option String
  matchLazyArray : String → Option String
  matchFlatArray : String → Option String
  matchObjectBlock : String → Option String
  repairMain : String → String
  repairFallback : String → String
  promptExtract : String → Int → Option String → String
  promptMissing : String → List (String × Json) → String → List String → String

/-! ## Response Recovery Parser (`ollama.service.ts`) -/

/-- The regex match `response.match(/\[[\s\S]*\]/)`: the substring from
the first `[` to the last `]`, when the latter comes after the former. -/
def jsArrayMatch (s : String) : Option String :=
  match s.data.indexOf? '[', s.data.reverse.indexOf? ']' with
  | some i, some r =>
    let j := s.data.length - 1 - r
    if i < j then some (String.mk ((s.data.drop i).take (j - i + 1))) else none
  | _, _ => none

/-- `cleanJsonString`: return the input if it already parses; otherwise
apply the main repair pass and re-parse; otherwise apply the aggressive
fallback pass and re-parse; otherwise return the minimal valid array
`"[]"`.  Every raised parse error is caught inside the function. -/
def cleanJsonString (env : OllamaEnv) (jsonString : String) : String :=
  match env.jsonParse jsonString with
  | .ok _ => jsonString
  | .error _ =>
    let repaired := env.repairMain jsonString
    match env.jsonParse repaired with
    | .ok _ => repaired
    | .error _ =>
      let fallback := env.repairFallback jsonString
      match env.jsonParse fallback with
      | .ok _ => fallback
      | .error _ => "[]"

/-- `validateQuestion`: schema validation of one parsed element. -/
def validateQuestion (q : Json) : Bool :=
  (match q.getField "question" with
   | some (.str s) => decide (s.length > 10)
   | _ => false) &&
  (match q.getField "options" with
   | some opts =>
     (letters.all fun k =>
       match opts.getField k with
       | some (.str _) => true
       | _ => false)
   | none => false) &&
  (match q.getField "correctAnswer" with
   | some (.str s) => letters.contains s
   | _ => false) &&
  (match q.getField "categories" with
   | some (.arr cats) =>
     !cats.isEmpty &&
       (cats.all fun c =>
         match c with
         | .str s => categoryNames.contains s
         | _ => false)
   | _ => false) &&
  (match q.getField "examYear" with
   | some (.num n) => decide (2000 ≤ n) && decide (n ≤ 2030)
   | _ => false) &&
  (match q.getField "intake" with
   | some (.str s) => intakeNames.contains s
   | _ => false)

/-- The missing-option test of `cleanQuestion`: an option slot is
regenerated when it is absent, not a string, falsy, or its trimmed text
is empty, contains `"Missing option"` or `"undefined"`, or equals
`"undefined"`. -/
def isMissingOption (v : Option Json) : Bool :=
  match v with
  | some (.str s) =>
    if s = "" then true
    else
      let t := jsTrim s
      t.length = 0 || jsIncludes t "Missing option" ||
        jsIncludes t "undefined" || t = "undefined"
  | _ => true

/-- `parseMissingOptionsResponse`: extract the generated wrong options
from the model's reply, with per-option fallbacks; the `No JSON found`
throw and any parse error are caught by the function's own handler. -/
def parseMissingOptionsResponse (env : OllamaEnv) (response : String)
    (missingOptions : List String) : List (String × String) :=
  match env.matchObjectBlock response with
  | none => missingOptions.map fun o => (o, "Medical alternative " ++ o)
  | some m =>
    match env.jsonParse m with
    | .error _ => missingOptions.map fun o => (o, "Medical alternative " ++ o)
    | .ok parsed =>
      missingOptions.map fun o =>
        match parsed.getField o with
        | some (.str s) =>
          if s = "" then (o, "Alternative medical option " ++ o)
          else (o, jsTrim s)
        | _ => (o, "Alternative medical option " ++ o)

/-- `generateMissingOptions`: ask the model for the missing wrong
options; if the call throws, fall back to placeholder options. -/
def generateMissingOptions (env : OllamaEnv) (questionText : String)
    (existingOptions : List (String × Json)) (correctAnswer : String)
    (missingOptions : List String) : List (String × String) :=
  match env.generate
      (env.promptMissing questionText existingOptions correctAnswer
        missingOptions) with
  | .error _ => missingOptions.map fun o => (o, "Alternative option " ++ o)
  | .ok response => parseMissingOptionsResponse env response missingOptions

/-- `calculateConfidence`: clamp the model-reported confidence into
`[0,1]` (default `0.7` when absent or not a number), add a quality
bonus of up to `10/10 * 0.25`, and clamp the result into
`[0.3, 0.95]`. -/
def calculateConfidence (q : Json) : ℚ :=
  let confidence0 : ℚ :=
    match q.getField "confidence" with
    | some (.num c) => max 0 (min 1 c)
    | _ => 7/10
  let questionText : String :=
    match q.getField "question" with
    | some (.str s) => jsTrim s
    | _ => ""
  let lengthScore : Nat :=
    if 50 ≤ questionText.length ∧ questionText.length ≤ 500 then 2
    else if 20 ≤ questionText.length ∧ questionText.length ≤ 1000 then 1
    else 0
  let optionText : String → String := fun k =>
    match ((q.getField "options").getD Json.null).getField k with
    | some (.str s) => jsTrim s
    | _ => ""
  let validOptions : Nat :=
    (letters.filter fun k =>
      3 ≤ (optionText k).length ∧ (optionText k).length ≤ 200).length
  let answerScore : Nat :=
    match q.getField "correctAnswer" with
    | some (.str s) => if letters.contains s then 1 else 0
    | _ => 0
  let categoriesScore : Nat :=
    match q.getField "categories" with
    | some (.arr xs) => if xs.isEmpty then 0 else 1
    | some (.str s) => if s.length > 0 then 1 else 0
    | _ => 0
  let yearScore : Nat :=
    match q.getField "examYear" with
    | some (.num n) => if n ≠ 0 ∧ 2000 ≤ n ∧ n ≤ 2030 then 1 else 0
    | _ => 0
  let intakeScore : Nat :=
    match q.getField "intake" with
    | some (.str s) => if intakeNames.contains s then 1 else 0
    | _ => 0
  let explanationScore : Nat :=
    match q.getField "explanation" with
    | some (.str s) => if s ≠ "" ∧ (jsTrim s).length > 10 then 1 else 0
    | _ => 0
  let qualityScore : Nat :=
    lengthScore + min 3 validOptions + answerScore + categoriesScore +
      yearScore + intakeScore + explanationScore
  let confidence : ℚ :=
    min (19/20) (confidence0 + (qualityScore : ℚ) / 10 * (1/4))
  max (3/10) (min (19/20) confidence)

/-- `q.intake as string` — the model-reported cohort label (string
payloads; the only case reachable behind `validateQuestion`). -/
def rawIntake (q : Json) : String :=
  match q.getField "intake" with
  | some (.str s) => s
  | _ => ""

/-- `q.examYear as number` — the model-reported year. -/
def rawExamYear (q : Json) : ℚ :=
  match q.getField "examYear" with
  | some (.num n) => n
  | _ => 0

/-- `cleanQuestion`: normalize a schema-valid element into an
`ExtractedQuestion`, overriding intake/year from hardcoded PDF-name
patterns, regenerating missing options through the model, and
recomputing the confidence.  (The `String(...)`/`as string` coercions
are modelled for string payloads, the only case reachable behind
`validateQuestion`.) -/
def cleanQuestion (env : OllamaEnv) (q : Json) (pdfName : Option String) :
    ExtractedQuestion :=
  let intakeRaw : String := rawIntake q
  let yearRaw : ℚ := rawExamYear q
  let overridden : String × ℚ :=
    match pdfName with
    | none => (intakeRaw, yearRaw)
    | some name =>
      let lower := jsLower name
      if jsIncludes lower "recall april 2025" then ("april-may", 2025)
      else if jsIncludes lower "recall january 2025" then ("january", 2025)
      else if jsIncludes lower "sept 2024" then ("september", 2024)
      else (intakeRaw, yearRaw)
  let questionText : String :=
    jsTrim
      (match q.getField "question" with
       | some (.str s) => s
       | _ => "")
  let correctAnswer : String :=
    match q.getField "correctAnswer" with
    | some (.str s) => s
    | _ => ""
  let existingOptions : List (String × Json) :=
    match q.getField "options" with
    | some (.obj fs) => fs
    | _ => []
  let missingOptions : List String :=
    letters.filter fun o => isMissingOption (existingOptions.lookup o)
  let generated : List (String × String) :=
    if missingOptions.length > 0 then
      generateMissingOptions env questionText existingOptions correctAnswer
        missingOptions
    else []
  let optValue : String → String := fun k =>
    match generated.lookup k with
    | some v => jsTrim v
    | none =>
      match existingOptions.lookup k with
      | some (.str s) => if s = "" then "" else jsTrim s
      | _ => ""
  { question := questionText
    options :=
      { A := optValue "A", B := optValue "B", C := optValue "C",
        D := optValue "D", E := optValue "E" }
    correctAnswer := correctAnswer
    categories :=
      (match q.getField "categories" with
       | some (.arr xs) => xs
       | _ => ([] : List Json)).filterMap fun c =>
        match c with
        | Json.str s => if categoryNames.contains s then some s else none
        | _ => none
    examYear := overridden.2
    intake := overridden.1
    explanation :=
      match q.getField "explanation" with
      | some (.str s) => if s = "" then "" else jsTrim s
      | _ => ""
    confidence := calculateConfidence q }

/-- The `try` body of `parseQuestionResponse`: locate the array
substring, repair it, `JSON.parse` it (a raised parse error propagates
to the handler), then validate and clean every element.  A missing
array match or a non-array parse yields an empty list directly. -/
def parseBody (env : OllamaEnv) (response : String)
    (pdfName : Option String) : Except String (List ExtractedQuestion) :=
  match jsArrayMatch response with
  | none => .ok []
  | some m =>
    let jsonString := cleanJsonString env m
    match env.jsonParse jsonString with
    | .error e => .error e
    | .ok (.arr items) =>
      .ok ((items.filter validateQuestion).map fun q =>
        cleanQuestion env q pdfName)
    | .ok _ => .ok []

/-- One attempt of `tryAlternativeJsonParsing`: `none` means "continue
with the next strategy" (no regex match, a parse error caught by the
attempt-level handler, or a non-array parse). -/
def tryParsingAttempt (env : OllamaEnv) (matcher : String → Option String)
    (response : String) (pdfName : Option String) :
    Option (List ExtractedQuestion) :=
  match matcher response with
  | none => none
  | some m =>
    let jsonString := cleanJsonString env m
    match env.jsonParse jsonString with
    | .error _ => none
    | .ok (.arr items) =>
      some ((items.filter validateQuestion).map fun q =>
        cleanQuestion env q pdfName)
    | .ok _ => none

/-- `tryAlternativeJsonParsing`: the three regex-driven strategies in
order, first success wins; all failing yields the empty list. -/
def tryAlternativeJsonParsing (env : OllamaEnv) (response : String)
    (pdfName : Option String) : List ExtractedQuestion :=
  match tryParsingAttempt env env.matchCodeBlock response pdfName with
  | some qs => qs
  | none =>
    match tryParsingAttempt env env.matchLazyArray response pdfName with
    | some qs => qs
    | none =>
      match tryParsingAttempt env env.matchFlatArray response pdfName with
      | some qs => qs
      | none => []

/-- `parseQuestionResponse`: the `try` body, with the `catch` handler
delegating to the alternative parsing strategies. -/
def parseQuestionResponse (env : OllamaEnv) (response : String)
    (pdfName : Option String) : Except String (List ExtractedQuestion) :=
  match parseBody env response pdfName with
  | .ok qs => .ok qs
  | .error _ => .ok (tryAlternativeJsonParsing env response pdfName)

/-- The per-option quality test of `isQuestionValid`. -/
def optionTextOk (t : String) : Bool :=
  !(t = "" || t.length < 3 || t.length > 1000 || jsIncludes t "..." ||
    jsIncludes t "???" || jsIncludes t "incomplete" ||
    jsIncludes t "fragment")

/-- `isQuestionValid` (`ollama.service.ts`): post-cleaning quality
validation of an `ExtractedQuestion`. -/
def isQuestionValid (q : ExtractedQuestion) : Bool :=
  !(q.question = "" || q.question.length < 20 ||
      q.question.length > 2000 || jsIncludes q.question "..." ||
      jsIncludes q.question "???" || jsIncludes q.question "incomplete" ||
      jsIncludes q.question "fragment") &&
  optionTextOk q.options.A && optionTextOk q.options.B &&
  optionTextOk q.options.C && optionTextOk q.options.D &&
  optionTextOk q.options.E &&
  (!(q.correctAnswer = "") && letters.contains q.correctAnswer) &&
  !q.categories.isEmpty &&
  (decide (q.examYear ≠ 0) && decide (2000 ≤ q.examYear) &&
    decide (q.examYear ≤ 2030)) &&
  !(q.intake = "") &&
  decide (3/10 ≤ q.confidence)

/-- `extractQuestionsFromText`: build the prompt, call the model (a
throw is caught and yields `[]`), recover/parse the response, and keep
only the quality-valid questions. -/
def extractQuestionsFromText (env : OllamaEnv) (text : String)
    (pageNumber : Int) (pdfName : Option String) :
    List ExtractedQuestion :=
  match env.generate (env.promptExtract text pageNumber pdfName) with
  | .error _ => []
  | .ok response =>
    match parseQuestionResponse env response pdfName with
    | .ok questions => questions.filter isQuestionValid
    | .error _ => []

/-! ## Deduplication & merge engine (`extraction.processor.ts`) -/

/-- A previously persisted question, as far as the merge engine reads
it: identifier, stem, verification status (the Prisma enum value, e.g.
`"APPROVED"`), and the stored AI confidence
(`existingQuestion.aiMetadata?.confidence`, `none` when the metadata or
the field is absent). -/
structure ExistingQuestion where
  id : String
  question : String
  status : String
  aiConfidence : Option ℚ
deriving DecidableEq

/-- External collaborators of `ExtractionProcessor`:

* `extractText` — `pdfService.extractTextFromPage`; `.error` models the
  throw for an unreadable page.
* `findSimilar` — `questionsService.findAll({search, limit: 10}).data`;
  `.error` models the query throwing (caught by
  `findExistingQuestion`).
* `pdfTotalPages` — `pdfService.getPdfInfo().totalPages`.
* `saveFails` — whether the `saveExtractionState` call at the top of
  `processPage` throws for a given page (the store mutations and the
  question-level store calls have their own catch handlers and cannot
  reach `processPage`'s handler). -/
structure ProcessorEnv where
  ollama : OllamaEnv
  extractText : Int → Except String String
  findSimilar : String → Except String (List ExistingQuestion)
  pdfTotalPages : Int
  saveFails : Int → Bool

/-- `isQuestionValid` (`extraction.processor.ts` version — it has no
`"incomplete"`/`"fragment"` and no confidence checks): per-option
test. -/
def procOptionTextOk (t : String) : Bool :=
  !(t = "" || t.length < 3 || t.length > 1000 || jsIncludes t "..." ||
    jsIncludes t "???")

/-- `isQuestionValid` (`extraction.processor.ts`). -/
def processorIsQuestionValid (q : ExtractedQuestion) : Bool :=
  !(q.question = "" || q.question.length < 20 ||
      q.question.length > 2000 || jsIncludes q.question "..." ||
      jsIncludes q.question "???") &&
  procOptionTextOk q.options.A && procOptionTextOk q.options.B &&
  procOptionTextOk q.options.C && procOptionTextOk q.options.D &&
  procOptionTextOk q.options.E &&
  (!(q.correctAnswer = "") && letters.contains q.correctAnswer) &&
  !q.categories.isEmpty &&
  (decide (q.examYear ≠ 0) && decide (2000 ≤ q.examYear) &&
    decide (q.examYear ≤ 2030)) &&
  !(q.intake = "")

/-- `findExistingQuestion`: query the store by the stem's first 100
characters, return the first result whose token-overlap similarity with
the candidate exceeds `0.8`; a thrown query error is caught and yields
`none`.  (JS `0.8` is modelled by the exact rational `4/5`.) -/
def findExistingQuestion (env : ProcessorEnv) (q : ExtractedQuestion) :
    Option ExistingQuestion :=
  match env.findSimilar (jsTake q.question 100) with
  | .error _ => none
  | .ok sims =>
    sims.find? fun ex =>
      decide (4/5 < calculateSimilarity ex.question q.question)

/-- `shouldUpdateQuestion`: replace an unverified existing question when
the candidate's confidence exceeds the stored one by more than `0.1`,
or when its stem is more than 20% longer.  (In JS, an absent stored
confidence compares as `undefined > x = false` in the first guard and
defaults to `0` in the second.) -/
def shouldUpdateQuestion (ex : ExistingQuestion) (q : ExtractedQuestion) :
    Bool :=
  if (match ex.aiConfidence with
      | some c => decide (q.confidence < c)
      | none => false) then false
  else if decide ((match ex.aiConfidence with
      | some c => c
      | none => 0) + 1/10 < q.confidence) then true
  else if decide ((ex.question.length : ℚ) * (12/10) <
      (q.question.length : ℚ)) then true
  else false

/-- A store mutation issued by the merge engine
(`questionsService.create` / `questionsService.update`). -/
inductive MergeAction where
  | create (q : ExtractedQuestion) : MergeAction
  | update (id : String) (q : ExtractedQuestion) : MergeAction
deriving DecidableEq

/-- The decision taken for one candidate in
`processExtractedQuestions`. -/
inductive MergeDecision where
  | invalidSkip : MergeDecision
  | overwriteUpdate (id : String) : MergeDecision
  | verifiedSkip : MergeDecision
  | updated (id : String) : MergeDecision
  | betterExistingSkip : MergeDecision
  | created : MergeDecision
deriving DecidableEq

/-- One iteration of the loop of `processExtractedQuestions`: the
decision taken for the candidate and the store mutations issued for
it. -/
def processOneExtractedQuestion (env : ProcessorEnv) (overwrite : Bool)
    (q : ExtractedQuestion) : MergeDecision × List MergeAction :=
  if !processorIsQuestionValid q then (.invalidSkip, [])
  else
    match findExistingQuestion env q with
    | some ex =>
      if overwrite then (.overwriteUpdate ex.id, [.update ex.id q])
      else if ex.status = "APPROVED" then (.verifiedSkip, [])
      else if shouldUpdateQuestion ex q then (.updated ex.id, [.update ex.id q])
      else (.betterExistingSkip, [])
    | none => (.created, [.create q])

/-- `processExtractedQuestions`: fold the per-candidate step over the
page's candidates; the first component collects the candidates whose
decision was CREATE (the source's `processedQuestions`), the second the
store mutations issued. -/
def processExtractedQuestions (env : ProcessorEnv) (overwrite : Bool)
    (qs : List ExtractedQuestion) :
    List ExtractedQuestion × List MergeAction :=
  qs.foldl
    (fun acc q =>
      let r := processOneExtractedQuestion env overwrite q
      (acc.1 ++ (if r.1 = .created then [q] else []), acc.2 ++ r.2))
    ([], [])

/-! ## Persisted job state (`ExtractionStateDto`, `settings/dto`) -/

inductive ExtractionStatus where
  | idle : ExtractionStatus
  | processing : ExtractionStatus
  | completed : ExtractionStatus
  | failed : ExtractionStatus
  | stopped : ExtractionStatus
deriving DecidableEq

/-- The persisted `ExtractionStateDto`.  Log lines are abstracted to
their count (their text embeds wall-clock timestamps) and the ISO
timestamps to set/unset flags; page numbers and counters are JS
numbers, modelled as `Int`/`Nat`. -/
structure ExtractionState where
  status : ExtractionStatus
  selectedPdf : String
  progress : Int
  totalPages : Int
  processedPages : Int
  failedPages : List Int
  logs : Nat
  startTimeSet : Bool
  endTimeSet : Bool
  error : Option String
  extractedQuestions : Nat
  questionsPerPage : List (Int × Nat)
  verifiedQuestions : Nat
  updatedQuestions : Nat
  skippedQuestions : Nat
  extractionId : Option String
  model : Option String
  startPage : Option Int
  maxPages : Option Int
  overwrite : Option Bool
deriving DecidableEq

/-- JS `Math.round` (ties away from zero on the inputs of interest);
the `totalPages = 0` case (JS `NaN`) is mapped to `0` and is never hit
by the runs below. -/
def jsRound (x : ℚ) : Int := ⌊x + 1/2⌋

/-- `updateProgress`: set the cursor to the page just processed and
recompute the percentage. -/
def updateProgress (pageNumber : Int) (s : ExtractionState) :
    ExtractionState :=
  { s with
    processedPages := pageNumber
    progress := jsRound ((pageNumber * 100 : ℚ) / (s.totalPages : ℚ)) }

/-- `state.questionsPerPage[pageNumber] = count`. -/
def setQuestionsPerPage (l : List (Int × Nat)) (k : Int) (v : Nat) :
    List (Int × Nat) :=
  match l.lookup k with
  | some _ => l.map fun kv => if kv.1 = k then (k, v) else kv
  | none => l ++ [(k, v)]

/-! ## Per-page processing (`processPage`, `extraction.processor.ts`) -/

/-- The `try` body of `processPage` after the initial log/save: acquire
the page text (a throw is caught locally and only logged), skip blank
pages, otherwise extract, merge and store.  Returns the updated local
state and the store mutations issued. -/
def processPageLocal (env : ProcessorEnv) (pageNumber : Int) (pdf : String)
    (overwrite : Bool) (s0 : ExtractionState) :
    ExtractionState × List MergeAction :=
  match env.extractText pageNumber with
  | .error _ =>
    (updateProgress pageNumber { s0 with logs := s0.logs + 1 }, [])
  | .ok pageText =>
    if (jsTrim pageText).length = 0 then
      (updateProgress pageNumber { s0 with logs := s0.logs + 1 }, [])
    else
      let qs := extractQuestionsFromText env.ollama pageText pageNumber
        (some pdf)
      let r := processExtractedQuestions env overwrite qs
      let s1 :=
        if r.1.length > 0 then
          { s0 with
            extractedQuestions := s0.extractedQuestions + r.1.length
            questionsPerPage :=
              setQuestionsPerPage s0.questionsPerPage pageNumber r.1.length
            logs := s0.logs + 1 + r.1.length }
        else { s0 with logs := s0.logs + 1 }
      (updateProgress pageNumber s1, r.2)

/-- `processPage`: push the "Processing page" log line and persist; if
that save throws, the `catch` records the page in the failed-page set;
otherwise run the body.  The third component is the persisted snapshot
written by this page (`none` when the save threw). -/
def processPage (env : ProcessorEnv) (pageNumber : Int) (pdf : String)
    (overwrite : Bool) (s : ExtractionState) :
    ExtractionState × List MergeAction × Option ExtractionState :=
  let s0 := { s with logs := s.logs + 1 }
  if env.saveFails pageNumber then
    ({ s0 with
        failedPages := s0.failedPages ++ [pageNumber]
        logs := s0.logs + 1 }, [], none)
  else
    let r := processPageLocal env pageNumber pdf overwrite s0
    (r.1, r.2, some s0)

/-! ## Background run (`handleExtraction`, `extraction.processor.ts`) -/

/-- The Bull job payload (`ExtractionJobData`).  `isContinuation` is
attached by `continueExtraction` but does not appear in the processor's
`ExtractionJobData` interface and is never read by it. -/
structure ExtractionJobData where
  extractionId : String
  filename : String
  model : Option String
  startPage : Option Int
  maxPages : Option Int
  overwrite : Option Bool
  isContinuation : Bool
deriving DecidableEq

/-- The integer interval `[lo, hi]` as a list (`for` loop range). -/
def intRange (lo hi : Int) : List Int :=
  (List.range (hi + 1 - lo).toNat).map fun (k : Nat) => lo + (k : Int)

/-- The page numbers iterated by `handleExtraction`'s `for` loop:
`actualStartPage = startPage || 1`, `actualMaxPages = maxPages ||
totalPages`, `endPage = min(actualStartPage + actualMaxPages − 1,
totalPages)`. -/
def handleExtractionPages (startPage maxPages : Option Int)
    (totalPages : Int) : List Int :=
  let actualStartPage := jsOrInt startPage 1
  let actualMaxPages := jsOrInt maxPages totalPages
  let endPage := min (actualStartPage + actualMaxPages - 1) totalPages
  intRange actualStartPage endPage

/-- The fresh `initialState` written by `handleExtraction` before any
page is processed — all counters and the cursor start at zero, for
continuation jobs too. -/
def processorInitialState (job : ExtractionJobData) : ExtractionState :=
  { status := .processing, selectedPdf := job.filename, progress := 0,
    totalPages := 0, processedPages := 0, failedPages := [], logs := 1,
    startTimeSet := true, endTimeSet := false, error := none,
    extractedQuestions := 0, questionsPerPage := [],
    verifiedQuestions := 0, updatedQuestions := 0, skippedQuestions := 0,
    extractionId := some job.extractionId, model := job.model,
    startPage := job.startPage, maxPages := job.maxPages,
    overwrite := job.overwrite }

/-- The sequential page loop: thread the processor's local state
through `processPage` and collect the persisted snapshots it writes. -/
def runPagesAux (env : ProcessorEnv) (pdf : String) (overwrite : Bool) :
    List Int → ExtractionState → ExtractionState × List ExtractionState
  | [], s => (s, [])
  | p :: ps, s =>
    let r := processPage env p pdf overwrite s
    let rest := runPagesAux env pdf overwrite ps r.1
    (rest.1, r.2.2.toList ++ rest.2)

/-- The happy-path run of `handleExtraction` (the PDF opens and the
top-level state saves succeed): the full ordered sequence of persisted
writes, and the final persisted state.  The processor never consults
any cancellation flag: the write sequence is fixed by the job data
alone. -/
def handleExtractionWrites (env : ProcessorEnv) (job : ExtractionJobData) :
    List ExtractionState × ExtractionState :=
  let init := processorInitialState job
  let withTotal :=
    { init with totalPages := env.pdfTotalPages, logs := init.logs + 1 }
  let withRange := { withTotal with logs := withTotal.logs + 1 }
  let pages := handleExtractionPages job.startPage job.maxPages
    env.pdfTotalPages
  let run := runPagesAux env job.filename (job.overwrite.getD false) pages
    withRange
  let fin := run.1
  let completed :=
    { fin with
      status := .completed
      endTimeSet := true
      logs := fin.logs + 5 }
  ([init, withTotal, withRange] ++ run.2 ++ [completed], completed)

/-! ## Job-control operations (`extraction.service.ts`, queue-backed) -/

/-- `StartExtractionDto` (`dto/start-extraction.dto.ts`); class-validator
enforces `startPage ≥ 1` and `1 ≤ maxPages ≤ 1896` when present. -/
structure StartExtractionDto where
  filename : String
  maxPages : Option Int
  batchSize : Option Int
  overwrite : Option Bool
  model : Option String
  startPage : Option Int
deriving DecidableEq

inductive StartError where
  | alreadyInProgress : StartError
deriving DecidableEq

inductive ContinueError where
  | noStoppedExtraction : ContinueError
  | allPagesProcessed : ContinueError
deriving DecidableEq

/-- The guard of `startExtraction`: a state exists and its status is
PROCESSING. -/
def isProcessing (current : Option ExtractionState) : Bool :=
  match current with
  | some s => s.status = ExtractionStatus.processing
  | none => false

/-- The `initialState` persisted by `startExtraction`: cursor
(`processedPages`) and every counter start at `0` whatever
`startPage` says. -/
def initialStartState (dto : StartExtractionDto) (newId : String) :
    ExtractionState :=
  { status := .processing, selectedPdf := dto.filename, progress := 0,
    totalPages := 0, processedPages := 0, failedPages := [], logs := 1,
    startTimeSet := true, endTimeSet := false, error := none,
    extractedQuestions := 0, questionsPerPage := [],
    verifiedQuestions := 0, updatedQuestions := 0, skippedQuestions := 0,
    extractionId := some newId, model := dto.model,
    startPage := dto.startPage, maxPages := dto.maxPages,
    overwrite := dto.overwrite }

/-- `startExtraction`: reject when a job is PROCESSING (before any
write); otherwise persist the initial state, enqueue the job payload,
and return the fresh job identifier immediately — no page is processed
here. -/
def startExtraction (current : Option ExtractionState)
    (dto : StartExtractionDto) (newId : String) :
    Except StartError (String × ExtractionState × ExtractionJobData) :=
  if isProcessing current then .error .alreadyInProgress
  else
    .ok (newId, initialStartState dto newId,
      { extractionId := newId, filename := dto.filename,
        model := dto.model, startPage := dto.startPage,
        maxPages := dto.maxPages, overwrite := dto.overwrite,
        isContinuation := false })

/-- The persisted state after a `startExtraction` call: the
configuration error is thrown before the initial state is saved, so on
failure the previously persisted state stands. -/
def startPersistedAfter (current : Option ExtractionState)
    (dto : StartExtractionDto) (newId : String) :
    Option ExtractionState :=
  match startExtraction current dto newId with
  | .error _ => current
  | .ok r => some r.2.1

/-- Result of `stopExtraction` together with the persisted state after
the call (the queue's waiting jobs are emptied, which does not affect
the already-running handler). -/
inductive StopResult where
  | noExtractionInProgress : StopResult
  | stoppedOk : StopResult
deriving DecidableEq

/-- `stopExtraction`: a no-op message unless the persisted status is
PROCESSING; otherwise persist STOPPED with an end timestamp and a log
line. -/
def stopExtraction (current : Option ExtractionState) :
    StopResult × Option ExtractionState :=
  match current with
  | none => (.noExtractionInProgress, none)
  | some s =>
    if s.status = ExtractionStatus.processing then
      (.stoppedOk,
        some
          { s with
            status := .stopped
            endTimeSet := true
            logs := s.logs + 1 })
    else (.noExtractionInProgress, some s)

/-- `continueExtraction`: reject unless the persisted status is
STOPPED; reject when the cursor has reached the page count; otherwise
re-enqueue a job starting at `processedPages + 1` with
`maxPages = originalMaxPages − (processedPages − (originalStartPage −
1))`, persisting the carried-over state switched back to PROCESSING. -/
def continueExtraction (current : Option ExtractionState)
    (newId : String) :
    Except ContinueError (ExtractionJobData × ExtractionState) :=
  match current with
  | none => .error .noStoppedExtraction
  | some s =>
    if s.status = ExtractionStatus.stopped then
      let nextStartPage := s.processedPages + 1
      if s.totalPages < nextStartPage then .error .allPagesProcessed
      else
        let originalMaxPages := jsOrInt s.maxPages s.totalPages
        let originalStartPage := jsOrInt s.startPage 1
        let remaining :=
          originalMaxPages - (s.processedPages - (originalStartPage - 1))
        .ok
          ({ extractionId := newId, filename := s.selectedPdf,
             model := s.model, startPage := some nextStartPage,
             maxPages := some remaining, overwrite := s.overwrite,
             isContinuation := true },
           { s with
             status := .processing
             extractionId := some newId
             endTimeSet := false
             logs := s.logs + 1 })
    else .error .noStoppedExtraction

/-! ## Stop interleaving
`Stop()` runs in the API process while the Bull handler is between two
persisted writes; the handler reads none of what `Stop()` wrote, so its
remaining writes are `handleExtractionWrites` past the cut point.  The
persisted-state sequence of the combined schedule is therefore the
first `m` processor writes, then the stop write, then the remaining
processor writes. -/

/-- The persisted sequence when `stopExtraction` is interposed after
the `m`-th persisted write of the background run. -/
def persistedWithStopAfter (env : ProcessorEnv) (job : ExtractionJobData)
    (m : Nat) : List ExtractionState :=
  let ws := (handleExtractionWrites env job).1
  let beforeStop := ws.take m
  match (stopExtraction beforeStop.getLast?).2 with
  | some stopped => beforeStop ++ [stopped] ++ ws.drop m
  | none => beforeStop ++ ws.drop m

/-! ## Concrete fixtures
Concrete environments and inputs used by witnesses and
counterexamples. -/

/-- A schema-valid parsed element, as `JSON.parse` would deliver it. -/
def sampleJson : Json :=
  Json.obj
    [("question",
       Json.str "Which muscle elevates the mandible during mastication"),
     ("options",
       Json.obj
         [("A", Json.str "Masseter"), ("B", Json.str "Buccinator"),
          ("C", Json.str "Platysma"), ("D", Json.str "Mylohyoid"),
          ("E", Json.str "Geniohyoid")]),
     ("correctAnswer", Json.str "A"),
     ("categories", Json.arr [Json.str "physiology"]),
     ("examYear", Json.num 2023),
     ("intake", Json.str "january"),
     ("explanation", Json.str "The masseter elevates the mandible"),
     ("confidence", Json.num (9/10))]

/-- An environment whose model call returns a well-formed array with
one schema-valid element. -/
def envW : OllamaEnv :=
  { generate := fun _ => .ok "[stub]"
    jsonParse := fun _ => .ok (Json.arr [sampleJson])
    matchCodeBlock := fun _ => none
    matchLazyArray := fun _ => none
    matchFlatArray := fun _ => none
    matchObjectBlock := fun _ => none
    repairMain := id
    repairFallback := id
    promptExtract := fun _ _ _ => ""
    promptMissing := fun _ _ _ _ => "" }

/-- The cleaned form of `sampleJson` under `envW`, without a PDF-name
override. -/
def qW : ExtractedQuestion := cleanQuestion envW sampleJson none

/-- An environment whose model call always throws (transport error /
timeout / non-2xx / empty response). -/
def envFail : OllamaEnv :=
  { envW with generate := fun _ => .error "Ollama generation failed" }

/-- A single-token stem (so its token-overlap similarity with itself is
exactly `1`). -/
def wC : String := "Whichanatomicalstructuredrainstothethoracicduct"

/-- A quality-valid candidate with stem `wC`. -/
def qC : ExtractedQuestion :=
  { question := wC
    options :=
      { A := "Option alpha", B := "Option beta", C := "Option gamma",
        D := "Option delta", E := "Option epsilon" }
    correctAnswer := "A"
    categories := ["physiology"]
    examYear := 2023
    intake := "january"
    explanation := ""
    confidence := 9/10 }

/-- An approved stored question with the same stem. -/
def exC : ExistingQuestion :=
  { id := "q-existing", question := wC, status := "APPROVED",
    aiConfidence := some (1/2) }

/-- A processor environment whose store query returns exactly the
approved `exC`. -/
def envC : ProcessorEnv :=
  { ollama := envW
    extractText := fun _ => .ok ""
    findSimilar := fun _ => .ok [exC]
    pdfTotalPages := 3
    saveFails := fun _ => false }

/-- A start command with an explicit `startPage = 5`. -/
def dtoFive : StartExtractionDto :=
  { filename := "doc.pdf", maxPages := some 10, batchSize := none,
    overwrite := some false, model := none, startPage := some 5 }

/-- A start command with `startPage = 1`. -/
def dtoOne : StartExtractionDto :=
  { filename := "doc.pdf", maxPages := some 10, batchSize := none,
    overwrite := none, model := none, startPage := some 1 }

/-- A processor environment whose model call always throws but whose
PDF pages read fine. -/
def env6 : ProcessorEnv :=
  { ollama := envFail
    extractText := fun _ => .ok "Anatomy of the thorax"
    findSimilar := fun _ => .ok []
    pdfTotalPages := 3
    saveFails := fun _ => false }

/-- A mid-run PROCESSING state with an empty failed-page set. -/
def s6 : ExtractionState :=
  { status := .processing, selectedPdf := "doc.pdf", progress := 33,
    totalPages := 3, processedPages := 1, failedPages := [], logs := 3,
    startTimeSet := true, endTimeSet := false, error := none,
    extractedQuestions := 0, questionsPerPage := [],
    verifiedQuestions := 0, updatedQuestions := 0, skippedQuestions := 0,
    extractionId := some "ext1", model := none, startPage := some 1,
    maxPages := some 3, overwrite := some false }

/-- A STOPPED state with nonzero cumulative counters, cursor `1` of
`3` pages. -/
def sW : ExtractionState :=
  { status := .stopped, selectedPdf := "doc.pdf", progress := 33,
    totalPages := 3, processedPages := 1, failedPages := [], logs := 5,
    startTimeSet := true, endTimeSet := true, error := none,
    extractedQuestions := 7, questionsPerPage := [(1, 7)],
    verifiedQuestions := 2, updatedQuestions := 3, skippedQuestions := 4,
    extractionId := some "ext1", model := none, startPage := some 1,
    maxPages := some 3, overwrite := some false }

/-- The continuation payload `continueExtraction` enqueues for `sW`:
`startPage = cursor + 1 = 2`, `maxPages = 3 − (1 − 0) = 2`. -/
def jobW : ExtractionJobData :=
  { extractionId := "ext2", filename := "doc.pdf", model := none,
    startPage := some 2, maxPages := some 2, overwrite := some false,
    isContinuation := true }

/-- The state `continueExtraction` persists for `sW` (counters carried
over). -/
def contStateW : ExtractionState :=
  { sW with
    status := .processing
    extractionId := some "ext2"
    endTimeSet := false
    logs := sW.logs + 1 }

/-- A plain start job over a 3-page document (paired with `env6`). -/
def jobStart3 : ExtractionJobData :=
  { extractionId := "ext1", filename := "doc.pdf", model := none,
    startPage := some 1, maxPages := some 3, overwrite := some false,
    isContinuation := false }

/-! ## Theorems -/

/-- For a duplicate-free list, the number of its elements occurring in
`l₂` is the cardinality of the intersection of the two token sets. -/
theorem length_filter_contains_of_nodup {α : Type} [DecidableEq α]
    (l₁ l₂ : List α) (h : l₁.Nodup) :
    (l₁.filter fun a => l₂.contains a).length =
      (l₁.toFinset ∩ l₂.toFinset).card := by
  have hf : (l₁.filter fun a => l₂.contains a).toFinset.card =
      (l₁.filter fun a => l₂.contains a).length :=
    List.toFinset_card_of_nodup (h.filter _)
  rw [← hf, List.toFinset_filter]
  congr 1
  ext a
  simp [List.elem_iff]

/-- The dedup of an append has as many elements as the union of the two
token sets. -/
theorem length_dedup_append {α : Type} [DecidableEq α] (l₁ l₂ : List α) :
    ((l₁ ++ l₂).dedup).length = (l₁.toFinset ∪ l₂.toFinset).card := by
  rw [← List.toFinset_append, List.card_toFinset]

theorem calculateSimilarity_two : calculateSimilarity "a a" "a" = 2 := by
  have h1 : ((tokenize "a a").filter fun w =>
      (tokenize "a").contains w).length = 2 := by decide
  have h2 : ((tokenize "a a" ++ tokenize "a").dedup).length = 1 := by decide
  simp only [calculateSimilarity, h1, h2]
  norm_num

theorem calculateSimilarity_one : calculateSimilarity "a" "a a" = 1 := by
  have h1 : ((tokenize "a").filter fun w =>
      (tokenize "a a").contains w).length = 1 := by decide
  have h2 : ((tokenize "a" ++ tokenize "a a").dedup).length = 1 := by decide
  simp only [calculateSimilarity, h1, h2]
  norm_num

/-- C7 (counterexample): the token-overlap similarity of the source is
not symmetric: for the stems `"a a"` and `"a"` it returns `2` one way
and `1` the other (`commonWords` keeps the multiplicity of the first
argument's tokens, so neither value is the claimed
`|wordsA ∩ wordsB| / |wordsA ∪ wordsB|`, which would be `1`). -/
theorem calculateSimilarity_not_symmetric :
    calculateSimilarity "a a" "a" = 2 ∧ calculateSimilarity "a" "a a" = 1 ∧
      calculateSimilarity "a a" "a" ≠ calculateSimilarity "a" "a a" := by
  refine ⟨calculateSimilarity_two, calculateSimilarity_one, ?_⟩
  rw [calculateSimilarity_two, calculateSimilarity_one]
  norm_num

/-- C7 (amended): whenever the two lower-cased whitespace-tokenized
stems are duplicate-free, the similarity is symmetric and equals
`|wordsA ∩ wordsB| / |wordsA ∪ wordsB|`; with repeated tokens the
metric counts multiplicities of the first stem and symmetry can fail. -/
theorem calculateSimilarity_symm_of_nodup (a b : String)
    (ha : (tokenize a).Nodup) (hb : (tokenize b).Nodup) :
    calculateSimilarity a b = calculateSimilarity b a ∧
    calculateSimilarity a b =
      (((tokenize a).toFinset ∩ (tokenize b).toFinset).card : ℚ) /
        (((tokenize a).toFinset ∪ (tokenize b).toFinset).card : ℚ) := by
  have k1 := length_filter_contains_of_nodup (tokenize a) (tokenize b) ha
  have k2 := length_filter_contains_of_nodup (tokenize b) (tokenize a) hb
  have d1 := length_dedup_append (tokenize a) (tokenize b)
  have d2 := length_dedup_append (tokenize b) (tokenize a)
  constructor
  · simp only [calculateSimilarity, k1, k2, d1, d2]
    rw [Finset.inter_comm ((tokenize b).toFinset),
      Finset.union_comm ((tokenize b).toFinset)]
  · simp only [calculateSimilarity, k1, d1]

/-- C7 (witness): the amended statement applied to two concrete
duplicate-free stems. -/
theorem calculateSimilarity_symm_of_nodup_witness :
    (tokenize "alpha beta").Nodup ∧ (tokenize "beta gamma").Nodup ∧
    (calculateSimilarity "alpha beta" "beta gamma" =
        calculateSimilarity "beta gamma" "alpha beta" ∧
      calculateSimilarity "alpha beta" "beta gamma" =
        (((tokenize "alpha beta").toFinset ∩
            (tokenize "beta gamma").toFinset).card : ℚ) /
          (((tokenize "alpha beta").toFinset ∪
              (tokenize "beta gamma").toFinset).card : ℚ)) :=
  ⟨by decide, by decide,
    calculateSimilarity_symm_of_nodup _ _ (by decide) (by decide)⟩


/-- C1: for every input string, however malformed, and every behaviour
of `JSON.parse`, the regex engine, and the repair rewrites, the
Response Recovery Parser returns `.ok` with a (possibly empty) list of
candidate records — no exception reaches its caller. -/
theorem parseQuestionResponse_never_throws (env : OllamaEnv)
    (response : String) (pdfName : Option String) :
    ∃ qs : List ExtractedQuestion,
      parseQuestionResponse env response pdfName = Except.ok qs := by
  unfold parseQuestionResponse
  cases parseBody env response pdfName with
  | ok qs => exact ⟨qs, rfl⟩
  | error e => exact ⟨tryAlternativeJsonParsing env response pdfName, rfl⟩

/-- Helper: `calculateConfidence` always lands in `[0.3, 0.95]`. -/
theorem calculateConfidence_bounds (q : Json) :
    3/10 ≤ calculateConfidence q ∧ calculateConfidence q ≤ 19/20 := by
  simp only [calculateConfidence]
  exact ⟨le_max_left _ _, max_le (by norm_num) (min_le_left _ _)⟩

/-- Helper: everything produced by one parsing attempt is a
`cleanQuestion` image. -/
theorem mem_attempt_clean (env : OllamaEnv)
    (matcher : String → Option String) (response : String)
    (pdfName : Option String) (qs : List ExtractedQuestion)
    (q : ExtractedQuestion)
    (h : tryParsingAttempt env matcher response pdfName = some qs)
    (hq : q ∈ qs) : ∃ j, q = cleanQuestion env j pdfName := by
  unfold tryParsingAttempt at h
  cases hm : matcher response with
  | none => simp [hm] at h
  | some m =>
    simp only [hm] at h
    cases hp : env.jsonParse (cleanJsonString env m) with
    | error e => simp [hp] at h
    | ok j =>
      simp only [hp] at h
      cases j with
      | arr items =>
        simp only [Option.some.injEq] at h
        subst h
        rcases List.mem_map.mp hq with ⟨j, _, rfl⟩
        exact ⟨j, rfl⟩
      | null => simp at h
      | bool b => simp at h
      | num n => simp at h
      | str s => simp at h
      | obj fs => simp at h

/-- Helper: everything produced by the `try` body is a `cleanQuestion`
image. -/
theorem mem_parseBody_clean (env : OllamaEnv) (response : String)
    (pdfName : Option String) (qs : List ExtractedQuestion)
    (q : ExtractedQuestion)
    (h : parseBody env response pdfName = .ok qs) (hq : q ∈ qs) :
    ∃ j, q = cleanQuestion env j pdfName := by
  unfold parseBody at h
  cases hm : jsArrayMatch response with
  | none =>
    simp only [hm, Except.ok.injEq] at h
    subst h
    cases hq
  | some m =>
    simp only [hm] at h
    cases hp : env.jsonParse (cleanJsonString env m) with
    | error e => simp [hp] at h
    | ok j =>
      simp only [hp] at h
      cases j with
      | arr items =>
        simp only [Except.ok.injEq] at h
        subst h
        rcases List.mem_map.mp hq with ⟨j, _, rfl⟩
        exact ⟨j, rfl⟩
      | null => simp only [Except.ok.injEq] at h; subst h; cases hq
      | bool b => simp only [Except.ok.injEq] at h; subst h; cases hq
      | num n => simp only [Except.ok.injEq] at h; subst h; cases hq
      | str s => simp only [Except.ok.injEq] at h; subst h; cases hq
      | obj fs => simp only [Except.ok.injEq] at h; subst h; cases hq

/-- Helper: everything produced by the alternative strategies is a
`cleanQuestion` image. -/
theorem mem_tryAlternative_clean (env : OllamaEnv) (response : String)
    (pdfName : Option String) (q : ExtractedQuestion)
    (hq : q ∈ tryAlternativeJsonParsing env response pdfName) :
    ∃ j, q = cleanQuestion env j pdfName := by
  unfold tryAlternativeJsonParsing at hq
  cases h1 : tryParsingAttempt env env.matchCodeBlock response pdfName with
  | some qs =>
    simp only [h1] at hq
    exact mem_attempt_clean env env.matchCodeBlock response pdfName qs q h1 hq
  | none =>
    simp only [h1] at hq
    cases h2 : tryParsingAttempt env env.matchLazyArray response pdfName with
    | some qs =>
      simp only [h2] at hq
      exact mem_attempt_clean env env.matchLazyArray response pdfName qs q h2 hq
    | none =>
      simp only [h2] at hq
      cases h3 : tryParsingAttempt env env.matchFlatArray response pdfName with
      | some qs =>
        simp only [h3] at hq
        exact mem_attempt_clean env env.matchFlatArray response pdfName qs q h3 hq
      | none => simp only [h3] at hq; cases hq

/-- Helper: everything the Response Recovery Parser returns is a
`cleanQuestion` image. -/
theorem mem_parse_clean (env : OllamaEnv) (response : String)
    (pdfName : Option String) (qs : List ExtractedQuestion)
    (q : ExtractedQuestion)
    (h : parseQuestionResponse env response pdfName = .ok qs)
    (hq : q ∈ qs) : ∃ j, q = cleanQuestion env j pdfName := by
  unfold parseQuestionResponse at h
  cases hb : parseBody env response pdfName with
  | ok qs' =>
    simp only [hb, Except.ok.injEq] at h
    subst h
    exact mem_parseBody_clean env response pdfName qs' q hb hq
  | error e =>
    simp only [hb, Except.ok.injEq] at h
    subst h
    exact mem_tryAlternative_clean env response pdfName q hq

/-- C9: every candidate returned by `extractQuestionsFromText` carries
a confidence in `[0.3, 0.95]`, whatever confidence (if any) the model
reported: the published confidence is always the recomputed, clamped
`calculateConfidence`. -/
theorem extractQuestionsFromText_confidence_in_bounds (env : OllamaEnv)
    (text : String) (pageNumber : Int) (pdfName : Option String)
    (q : ExtractedQuestion)
    (h : q ∈ extractQuestionsFromText env text pageNumber pdfName) :
    3/10 ≤ q.confidence ∧ q.confidence ≤ 19/20 := by
  unfold extractQuestionsFromText at h
  cases hg : env.generate (env.promptExtract text pageNumber pdfName) with
  | error e => simp [hg] at h
  | ok response =>
    simp only [hg] at h
    cases hp : parseQuestionResponse env response pdfName with
    | error e => simp [hp] at h
    | ok qs =>
      simp only [hp] at h
      have hq : q ∈ qs := List.mem_of_mem_filter h
      obtain ⟨j, rfl⟩ := mem_parse_clean env response pdfName qs q hp hq
      have hc : (cleanQuestion env j pdfName).confidence =
        calculateConfidence j := rfl
      rw [hc]
      exact calculateConfidence_bounds j

/-- C9 (witness): a concrete run returning one candidate, whose
confidence the theorem bounds. -/
theorem extractQuestionsFromText_confidence_in_bounds_witness :
    qW ∈ extractQuestionsFromText envW "page text" 1 none ∧
      (3/10 ≤ qW.confidence ∧ qW.confidence ≤ 19/20) := by
  have hconf : decide (3/10 ≤ qW.confidence) = true :=
    decide_eq_true (calculateConfidence_bounds sampleJson).1
  have hvalid : isQuestionValid qW = true := by
    unfold isQuestionValid
    rw [hconf]
    decide
  have hmem : qW ∈ extractQuestionsFromText envW "page text" 1 none := by
    have he : extractQuestionsFromText envW "page text" 1 none =
        [qW].filter isQuestionValid := rfl
    rw [he]
    simp [List.filter_cons, hvalid]
  exact ⟨hmem,
    extractQuestionsFromText_confidence_in_bounds envW "page text" 1 none
      qW hmem⟩


/-- C10 (counterexample): the PDF-name overrides are an ordered
`if/else if` chain, so a document name containing both the April and
the January patterns takes the April branch: the claim's clause "if the
name contains `recall january 2025` the intake is `january`" fails on
it. -/
theorem cleanQuestion_january_clause_counterexample :
    validateQuestion sampleJson = true ∧
    jsIncludes (jsLower "Recall April 2025 x Recall January 2025")
      "recall january 2025" = true ∧
    (cleanQuestion envW sampleJson
      (some "Recall April 2025 x Recall January 2025")).intake ≠ "january" ∧
    (cleanQuestion envW sampleJson
      (some "Recall April 2025 x Recall January 2025")).intake =
      "april-may" := by
  exact ⟨by decide, by decide, by decide, by decide⟩

/-- C10 (amended): for any parsed candidate and any document name, the
returned intake and year follow the hardcoded PDF-name patterns tested
in order — `recall april 2025` first, then `recall january 2025`, then
`sept 2024`, the first match winning — and only fall back to the
model-reported values when no pattern occurs in the lower-cased
name. -/
theorem cleanQuestion_pdfName_overrides (env : OllamaEnv) (q : Json)
    (name : String) :
    (cleanQuestion env q (some name)).intake =
      (if jsIncludes (jsLower name) "recall april 2025" then "april-may"
       else if jsIncludes (jsLower name) "recall january 2025" then
         "january"
       else if jsIncludes (jsLower name) "sept 2024" then "september"
       else rawIntake q) ∧
    (cleanQuestion env q (some name)).examYear =
      (if jsIncludes (jsLower name) "recall april 2025" then 2025
       else if jsIncludes (jsLower name) "recall january 2025" then 2025
       else if jsIncludes (jsLower name) "sept 2024" then 2024
       else rawExamYear q) := by
  by_cases h1 : jsIncludes (jsLower name) "recall april 2025" = true <;>
    by_cases h2 : jsIncludes (jsLower name) "recall january 2025" = true <;>
      by_cases h3 : jsIncludes (jsLower name) "sept 2024" = true <;>
        simp [cleanQuestion, h1, h2, h3]

/-- C2: an approved existing record matched by the engine (similarity
above `0.8`) is never touched without `overwrite`: the decision for the
candidate is the verified SKIP and no create/update store call is
issued for it. -/
theorem approved_match_skips (env : ProcessorEnv) (q : ExtractedQuestion)
    (ex : ExistingQuestion)
    (hvalid : processorIsQuestionValid q = true)
    (hfind : findExistingQuestion env q = some ex)
    (happroved : ex.status = "APPROVED") :
    processOneExtractedQuestion env false q =
      (MergeDecision.verifiedSkip, []) := by
  simp [processOneExtractedQuestion, hvalid, hfind, happroved]

/-- C2 (witness): a concrete candidate matching a concrete approved
record (similarity `1`) is skipped with no store mutation. -/
theorem approved_match_skips_witness :
    processorIsQuestionValid qC = true ∧
    findExistingQuestion envC qC = some exC ∧
    exC.status = "APPROVED" ∧
    processOneExtractedQuestion envC false qC =
      (MergeDecision.verifiedSkip, []) := by
  have hsim : (4 : ℚ)/5 < calculateSimilarity exC.question qC.question := by
    have h1 : ((tokenize wC).filter fun t =>
        (tokenize wC).contains t).length = 1 := by decide
    have h2 : ((tokenize wC ++ tokenize wC).dedup).length = 1 := by decide
    show (4 : ℚ)/5 < calculateSimilarity wC wC
    simp only [calculateSimilarity, h1, h2]
    norm_num
  have hfind : findExistingQuestion envC qC = some exC := by
    show ([exC].find? fun ex =>
      decide (4/5 < calculateSimilarity ex.question qC.question)) = some exC
    exact List.find?_cons_of_pos _ (decide_eq_true hsim)
  exact ⟨by decide, hfind, rfl,
    approved_match_skips envC qC exC (by decide) hfind rfl⟩


/-- Helper: membership in an integer interval list. -/
theorem mem_intRange {p lo hi : Int} :
    p ∈ intRange lo hi ↔ lo ≤ p ∧ p ≤ hi := by
  simp only [intRange, List.mem_map, List.mem_range]
  constructor
  · rintro ⟨k, hk, rfl⟩
    rw [Int.lt_toNat] at hk
    omega
  · rintro ⟨h1, h2⟩
    refine ⟨(p - lo).toNat, ?_, ?_⟩
    · rw [Int.lt_toNat, Int.toNat_of_nonneg (by omega)]
      omega
    · rw [Int.toNat_of_nonneg (by omega)]
      omega

/-- Helper: an integer interval list is strictly increasing. -/
theorem pairwise_intRange (lo hi : Int) :
    (intRange lo hi).Pairwise (· < ·) := by
  unfold intRange
  refine List.pairwise_map.mpr ?_
  refine (List.pairwise_lt_range _).imp ?_
  intro a b h
  omega

/-- Helper: `jsOrInt` keeps a nonzero value. -/
theorem jsOrInt_some_ne_zero {n d : Int} (h : ¬n = 0) :
    jsOrInt (some n) d = n := by
  simp [jsOrInt, h]

/-- C8: for a start command with `startPage = s ≥ 1` and
`maxPages = m ≥ 1` (the bounds class-validator enforces), the page loop
of the background run iterates exactly over
`[s, min (s + m − 1) totalPages]`, in strictly increasing order with no
page repeated and none outside the range; an absent `startPage`
defaults to `1`. -/
theorem run_processes_exact_page_range (s m total : Int)
    (hs : 1 ≤ s) (hm : 1 ≤ m) :
    (∀ p, p ∈ handleExtractionPages (some s) (some m) total ↔
        s ≤ p ∧ p ≤ min (s + m - 1) total) ∧
    (handleExtractionPages (some s) (some m) total).Pairwise (· < ·) ∧
    (handleExtractionPages (some s) (some m) total).Nodup ∧
    handleExtractionPages none (some m) total =
      handleExtractionPages (some 1) (some m) total := by
  have hs0 : ¬s = 0 := by omega
  have hm0 : ¬m = 0 := by omega
  have hpages : handleExtractionPages (some s) (some m) total =
      intRange s (min (s + m - 1) total) := by
    simp only [handleExtractionPages, jsOrInt_some_ne_zero hs0,
      jsOrInt_some_ne_zero hm0]
  refine ⟨?_, ?_, ?_, ?_⟩
  · intro p
    rw [hpages, mem_intRange]
  · rw [hpages]
    exact pairwise_intRange _ _
  · rw [hpages]
    exact (pairwise_intRange _ _).imp fun h => ne_of_lt h
  · simp [handleExtractionPages, jsOrInt]

/-- C8 (witness): the theorem at `startPage = 2`, `maxPages = 3`,
`totalPages = 4`. -/
theorem run_processes_exact_page_range_witness :
    (1 : Int) ≤ 2 ∧ (1 : Int) ≤ 3 ∧
    ((∀ p, p ∈ handleExtractionPages (some 2) (some 3) 4 ↔
        2 ≤ p ∧ p ≤ min (2 + 3 - 1) 4) ∧
      (handleExtractionPages (some 2) (some 3) 4).Pairwise (· < ·) ∧
      (handleExtractionPages (some 2) (some 3) 4).Nodup ∧
      handleExtractionPages none (some 3) 4 =
        handleExtractionPages (some 1) (some 3) 4) :=
  ⟨by norm_num, by norm_num,
    run_processes_exact_page_range 2 3 4 (by norm_num) (by norm_num)⟩


/-- Helper: the `startExtraction` guard in terms of the persisted
state. -/
theorem isProcessing_iff (current : Option ExtractionState) :
    isProcessing current = true ↔
      ∃ s, current = some s ∧ s.status = .processing := by
  cases current with
  | none => simp [isProcessing]
  | some s => simp [isProcessing]

/-- C5 (counterexample): with `startPage = 5` the initial persisted
state has cursor (`processedPages`) `0`, not `startPage − 1 = 4`. -/
theorem startExtraction_cursor_counterexample :
    startExtraction none dtoFive "ext1" =
      .ok ("ext1", initialStartState dtoFive "ext1",
        { extractionId := "ext1", filename := "doc.pdf", model := none,
          startPage := some 5, maxPages := some 10,
          overwrite := some false, isContinuation := false }) ∧
    dtoFive.startPage = some 5 ∧
    (initialStartState dtoFive "ext1").processedPages = 0 ∧
    ¬(initialStartState dtoFive "ext1").processedPages =
      jsOrInt dtoFive.startPage 1 - 1 :=
  ⟨rfl, rfl, rfl, by decide⟩

/-- C5 (amended): `startExtraction` fails with the already-running
error iff the persisted status is PROCESSING, and on failure writes
nothing; otherwise it persists an initial PROCESSING state whose
cursor is `0` — which equals `startPage − 1` only when `startPage` is
absent or `1` — and returns the fresh job identifier with the enqueued
payload, processing no page itself. -/
theorem startExtraction_guard_and_initial_state
    (current : Option ExtractionState) (dto : StartExtractionDto)
    (newId : String) :
    (startExtraction current dto newId = .error .alreadyInProgress ↔
      ∃ s, current = some s ∧ s.status = .processing) ∧
    (startExtraction current dto newId = .error .alreadyInProgress →
      startPersistedAfter current dto newId = current) ∧
    ((∀ s, current = some s → ¬s.status = .processing) →
      startExtraction current dto newId =
        .ok (newId, initialStartState dto newId,
          { extractionId := newId, filename := dto.filename,
            model := dto.model, startPage := dto.startPage,
            maxPages := dto.maxPages, overwrite := dto.overwrite,
            isContinuation := false })) ∧
    (initialStartState dto newId).processedPages = 0 ∧
    (initialStartState dto newId).status = .processing ∧
    ((dto.startPage = none ∨ dto.startPage = some 1) →
      (initialStartState dto newId).processedPages =
        jsOrInt dto.startPage 1 - 1) := by
  refine ⟨⟨?_, ?_⟩, ?_, ?_, rfl, rfl, ?_⟩
  · intro h
    rw [← isProcessing_iff]
    by_contra hp
    simp [startExtraction, hp] at h
  · intro hs
    have hp : isProcessing current = true := (isProcessing_iff current).mpr hs
    simp [startExtraction, hp]
  · intro h
    unfold startPersistedAfter
    rw [h]
  · intro hall
    have hp : ¬isProcessing current = true := by
      rw [isProcessing_iff]
      rintro ⟨s, rfl, hs⟩
      exact hall s rfl hs
    simp [startExtraction, hp]
  · rintro (h | h) <;> simp [h, jsOrInt, initialStartState]

/-- C5 (witness): starting from an empty persisted state with
`startPage = 1`: the call succeeds and the initial cursor equals
`startPage − 1 = 0`. -/
theorem startExtraction_guard_witness :
    (∀ s, (none : Option ExtractionState) = some s →
      ¬s.status = .processing) ∧
    (dtoOne.startPage = none ∨ dtoOne.startPage = some 1) ∧
    startExtraction none dtoOne "ext9" =
      .ok ("ext9", initialStartState dtoOne "ext9",
        { extractionId := "ext9", filename := dtoOne.filename,
          model := dtoOne.model, startPage := dtoOne.startPage,
          maxPages := dtoOne.maxPages, overwrite := dtoOne.overwrite,
          isContinuation := false }) ∧
    (initialStartState dtoOne "ext9").processedPages =
      jsOrInt dtoOne.startPage 1 - 1 := by
  have h := startExtraction_guard_and_initial_state none dtoOne "ext9"
  exact ⟨fun s hs => (by cases hs), Or.inr rfl,
    h.2.2.1 (fun s hs => (by cases hs)), h.2.2.2.2.2 (Or.inr rfl)⟩


/-- C6 (counterexample): the model collaborator throws on page 2, the
page has readable non-blank text — yet the failed-page set stays empty
(`extractQuestionsFromText` swallows the error and returns `[]`), the
cursor still advances, and the claim's "page recorded in the
failed-page set" is false. -/
theorem model_failure_not_recorded_counterexample :
    extractQuestionsFromText envFail "Anatomy of the thorax" 2
      (some "doc.pdf") = [] ∧
    (processPage env6 2 "doc.pdf" false s6).1.failedPages = [] ∧
    ¬(2 ∈ (processPage env6 2 "doc.pdf" false s6).1.failedPages) ∧
    (processPage env6 2 "doc.pdf" false s6).1.processedPages = 2 ∧
    (processPage env6 2 "doc.pdf" false s6).2.1 = [] :=
  ⟨rfl, rfl, by decide, rfl, rfl⟩

/-- C6 (amended): a model-invocation failure on a page is caught inside
`extractQuestionsFromText`, which returns the empty candidate list (the
failure is only logged); the page then completes normally — cursor
advanced, no store mutation, failed-page set UNCHANGED (the page is
not recorded in it) — and the run's status is untouched, so the job
continues to the next page and a model failure is never fatal. -/
theorem model_failure_swallowed (env : ProcessorEnv) (page : Int)
    (pdf : String) (ow : Bool) (s : ExtractionState) (text : String)
    (htext : env.extractText page = .ok text)
    (hnb : ¬(jsTrim text).length = 0)
    (hsave : env.saveFails page = false)
    (hfail : ∀ prompt, ∃ e, env.ollama.generate prompt = .error e) :
    extractQuestionsFromText env.ollama text page (some pdf) = [] ∧
    (processPage env page pdf ow s).1.failedPages = s.failedPages ∧
    (processPage env page pdf ow s).1.processedPages = page ∧
    (processPage env page pdf ow s).2.1 = [] ∧
    (processPage env page pdf ow s).1.status = s.status := by
  have hex : extractQuestionsFromText env.ollama text page (some pdf) = [] := by
    obtain ⟨e, he⟩ := hfail (env.ollama.promptExtract text page (some pdf))
    simp [extractQuestionsFromText, he]
  have hpp : processPage env page pdf ow s =
      (updateProgress page { s with logs := s.logs + 1 + 1 }, [],
        some { s with logs := s.logs + 1 }) := by
    unfold processPage
    rw [hsave]
    simp only [Bool.false_eq_true, if_false]
    unfold processPageLocal
    rw [htext]
    simp only [hnb, if_false, hex, processExtractedQuestions,
      List.foldl_nil, List.length_nil, gt_iff_lt, lt_self_iff_false]
  rw [hpp]
  exact ⟨hex, rfl, rfl, rfl, rfl⟩

/-- C6 (witness): the amended statement at the concrete failing
environment. -/
theorem model_failure_swallowed_witness :
    env6.extractText 2 = .ok "Anatomy of the thorax" ∧
    ¬(jsTrim "Anatomy of the thorax").length = 0 ∧
    env6.saveFails 2 = false ∧
    (extractQuestionsFromText env6.ollama "Anatomy of the thorax" 2
        (some "doc.pdf") = [] ∧
      (processPage env6 2 "doc.pdf" false s6).1.failedPages =
        s6.failedPages ∧
      (processPage env6 2 "doc.pdf" false s6).1.processedPages = 2 ∧
      (processPage env6 2 "doc.pdf" false s6).2.1 = [] ∧
      (processPage env6 2 "doc.pdf" false s6).1.status = s6.status) :=
  ⟨rfl, by decide, rfl,
    model_failure_swallowed env6 2 "doc.pdf" false s6
      "Anatomy of the thorax" rfl (by decide) rfl
      (fun prompt => ⟨"Ollama generation failed", rfl⟩)⟩


/-- Helper: a nonempty integer interval starts at its lower bound. -/
theorem intRange_head (lo hi : Int) (h : lo ≤ hi) :
    (intRange lo hi).head? = some lo := by
  unfold intRange
  have hn : (hi + 1 - lo).toNat = (hi - lo).toNat + 1 := by omega
  rw [hn, List.range_succ_eq_map]
  simp

/-- C4 (amended): `Continue()` fails with the no-stopped-job error iff
the persisted status is not STOPPED; given STOPPED it fails with the
all-pages-processed error iff `cursor ≥ totalPages`; otherwise it
enqueues a job whose `startPage` is exactly `cursor + 1` (with
`maxPages = originalMaxPages − (cursor − (originalStartPage − 1))`)
while persisting the carried-over counters, and the new run's page loop
starts exactly at `cursor + 1` and touches no page at or below the
cursor — but the background processor's fresh initial state resets
every cumulative counter to zero (the `isContinuation` flag is never
read), so the counters are not preserved by the run. -/
theorem continueExtraction_resume (current : Option ExtractionState)
    (newId : String) :
    (continueExtraction current newId = .error .noStoppedExtraction ↔
      ∀ s, current = some s → ¬s.status = .stopped) ∧
    (∀ s, current = some s → s.status = .stopped →
      (continueExtraction current newId = .error .allPagesProcessed ↔
        s.totalPages ≤ s.processedPages)) ∧
    (∀ s, current = some s → s.status = .stopped →
      s.processedPages < s.totalPages →
      continueExtraction current newId = .ok
        ({ extractionId := newId, filename := s.selectedPdf,
           model := s.model, startPage := some (s.processedPages + 1),
           maxPages := some (jsOrInt s.maxPages s.totalPages -
             (s.processedPages - (jsOrInt s.startPage 1 - 1))),
           overwrite := s.overwrite, isContinuation := true },
         { s with
           status := .processing
           extractionId := some newId
           endTimeSet := false
           logs := s.logs + 1 })) ∧
    (∀ s, current = some s → s.status = .stopped →
      s.processedPages < s.totalPages → 0 ≤ s.processedPages →
      0 ≤ jsOrInt s.maxPages s.totalPages -
        (s.processedPages - (jsOrInt s.startPage 1 - 1)) →
      (handleExtractionPages (some (s.processedPages + 1))
          (some (jsOrInt s.maxPages s.totalPages -
            (s.processedPages - (jsOrInt s.startPage 1 - 1))))
          s.totalPages).head? = some (s.processedPages + 1) ∧
      ∀ p ∈ handleExtractionPages (some (s.processedPages + 1))
          (some (jsOrInt s.maxPages s.totalPages -
            (s.processedPages - (jsOrInt s.startPage 1 - 1))))
          s.totalPages, s.processedPages < p) ∧
    (∀ job : ExtractionJobData,
      (processorInitialState job).extractedQuestions = 0 ∧
      (processorInitialState job).verifiedQuestions = 0 ∧
      (processorInitialState job).updatedQuestions = 0 ∧
      (processorInitialState job).skippedQuestions = 0 ∧
      (processorInitialState job).processedPages = 0) := by
  refine ⟨?_, ?_, ?_, ?_, fun job => ⟨rfl, rfl, rfl, rfl, rfl⟩⟩
  · cases current with
    | none => simp [continueExtraction]
    | some s =>
      by_cases hstop : s.status = ExtractionStatus.stopped
      · by_cases hcur : s.totalPages < s.processedPages + 1
        · simp [continueExtraction, hstop, hcur]
        · simp [continueExtraction, hstop, hcur]
      · simp [continueExtraction, hstop]
  · rintro s rfl hstop
    by_cases hcur : s.totalPages < s.processedPages + 1
    · constructor
      · intro _
        omega
      · intro _
        simp [continueExtraction, hstop, hcur]
    · simp [continueExtraction, hstop, hcur]
      omega
  · rintro s rfl hstop hcur
    have hcur2 : ¬s.totalPages < s.processedPages + 1 := by omega
    simp [continueExtraction, hstop, hcur2]
  · rintro s rfl hstop hcur hpp hrem
    set r := jsOrInt s.maxPages s.totalPages -
      (s.processedPages - (jsOrInt s.startPage 1 - 1)) with hr
    have ha : ¬s.processedPages + 1 = 0 := by omega
    by_cases hr0 : r = 0
    · have hpages : handleExtractionPages (some (s.processedPages + 1))
          (some r) s.totalPages =
          intRange (s.processedPages + 1) s.totalPages := by
        rw [hr0]
        simp only [handleExtractionPages, jsOrInt, if_neg ha,
          eq_self_iff_true, if_true]
        congr 1
        omega
      rw [hpages]
      refine ⟨intRange_head _ _ (by omega), ?_⟩
      intro p hp
      have := mem_intRange.mp hp
      omega
    · have hpages : handleExtractionPages (some (s.processedPages + 1))
          (some r) s.totalPages =
          intRange (s.processedPages + 1)
            (min (s.processedPages + 1 + r - 1) s.totalPages) := by
        simp only [handleExtractionPages, jsOrInt_some_ne_zero ha,
          jsOrInt_some_ne_zero hr0]
      rw [hpages]
      have hub : s.processedPages + 1 ≤
          min (s.processedPages + 1 + r - 1) s.totalPages := by
        omega
      refine ⟨intRange_head _ _ hub, ?_⟩
      intro p hp
      have := mem_intRange.mp hp
      omega


/-- C4 (witness): continuing the concrete stopped state `sW` (cursor
`1` of `3`): the new job starts exactly at page `2` and its page loop
begins at `2`, touching no page at or below the cursor. -/
theorem continueExtraction_resume_witness :
    sW.status = .stopped ∧ sW.processedPages < sW.totalPages ∧
    (0 : Int) ≤ sW.processedPages ∧
    (0 : Int) ≤ jsOrInt sW.maxPages sW.totalPages -
      (sW.processedPages - (jsOrInt sW.startPage 1 - 1)) ∧
    continueExtraction (some sW) "ext2" = .ok
      ({ extractionId := "ext2", filename := sW.selectedPdf,
         model := sW.model, startPage := some (sW.processedPages + 1),
         maxPages := some (jsOrInt sW.maxPages sW.totalPages -
           (sW.processedPages - (jsOrInt sW.startPage 1 - 1))),
         overwrite := sW.overwrite, isContinuation := true },
       { sW with
         status := .processing
         extractionId := some "ext2"
         endTimeSet := false
         logs := sW.logs + 1 }) ∧
    (handleExtractionPages (some (sW.processedPages + 1))
        (some (jsOrInt sW.maxPages sW.totalPages -
          (sW.processedPages - (jsOrInt sW.startPage 1 - 1))))
        sW.totalPages).head? = some (sW.processedPages + 1) ∧
    ∀ p ∈ handleExtractionPages (some (sW.processedPages + 1))
        (some (jsOrInt sW.maxPages sW.totalPages -
          (sW.processedPages - (jsOrInt sW.startPage 1 - 1))))
        sW.totalPages, sW.processedPages < p := by
  have h := continueExtraction_resume (some sW) "ext2"
  have hd := h.2.2.2.1 sW rfl rfl (by decide) (by decide) (by decide)
  exact ⟨rfl, by decide, by decide, by decide,
    h.2.2.1 sW rfl rfl (by decide), hd.1, hd.2⟩

/-- C4 (counterexample): the claim says the continued run preserves the
cumulative counters; but while `continueExtraction` persists them, the
background processor immediately re-initializes the state with every
counter at zero (`sW` had 7 extracted / 2 verified-skipped / 3 updated
/ 4 skipped), so the run does not preserve them. -/
theorem continuation_counters_reset_counterexample :
    sW.status = .stopped ∧ sW.extractedQuestions = 7 ∧
    continueExtraction (some sW) "ext2" = .ok (jobW, contStateW) ∧
    ((handleExtractionWrites env6 jobW).1).head? =
      some (processorInitialState jobW) ∧
    (processorInitialState jobW).extractedQuestions = 0 ∧
    ¬(processorInitialState jobW).extractedQuestions =
      sW.extractedQuestions ∧
    (processorInitialState jobW).verifiedQuestions = 0 ∧
    (processorInitialState jobW).updatedQuestions = 0 ∧
    (processorInitialState jobW).skippedQuestions = 0 :=
  ⟨rfl, rfl, rfl, rfl, rfl, by decide, rfl, rfl, rfl⟩


/-- Helper: the body of `processPage` never changes the job status. -/
theorem processPageLocal_status (env : ProcessorEnv) (p : Int)
    (pdf : String) (ow : Bool) (s0 : ExtractionState) :
    (processPageLocal env p pdf ow s0).1.status = s0.status := by
  unfold processPageLocal
  cases env.extractText p with
  | error e => rfl
  | ok t =>
    simp only []
    split
    · rfl
    · split <;> rfl

/-- Helper: `processPage` never changes the job status. -/
theorem processPage_state_status (env : ProcessorEnv) (p : Int)
    (pdf : String) (ow : Bool) (s : ExtractionState) :
    (processPage env p pdf ow s).1.status = s.status := by
  unfold processPage
  simp only []
  split
  · rfl
  · rw [processPageLocal_status]

/-- Helper: the snapshot persisted by `processPage` carries the status
it was called with. -/
theorem processPage_write_status (env : ProcessorEnv) (p : Int)
    (pdf : String) (ow : Bool) (s : ExtractionState)
    (w : ExtractionState) :
    (processPage env p pdf ow s).2.2 = some w → w.status = s.status := by
  unfold processPage
  simp only []
  split
  · intro h
    simp at h
  · intro h
    simp only [Option.some.injEq] at h
    subst h
    rfl

/-- Helper: the page loop neither changes the status of the local
state nor writes a snapshot with a different status. -/
theorem runPagesAux_status (env : ProcessorEnv) (pdf : String)
    (ow : Bool) (ps : List Int) (s : ExtractionState) :
    (runPagesAux env pdf ow ps s).1.status = s.status ∧
    ∀ w ∈ (runPagesAux env pdf ow ps s).2, w.status = s.status := by
  induction ps generalizing s with
  | nil => exact ⟨rfl, fun w hw => absurd hw (List.not_mem_nil w)⟩
  | cons p ps ih =>
    unfold runPagesAux
    simp only []
    constructor
    · rw [(ih ((processPage env p pdf ow s).1)).1, processPage_state_status]
    · intro w hw
      rcases List.mem_append.mp hw with h | h
      · have hsome : (processPage env p pdf ow s).2.2 = some w := by
          cases hx : (processPage env p pdf ow s).2.2 with
          | none => rw [hx] at h; cases h
          | some v =>
            rw [hx] at h
            simp at h
            subst h
            rfl
        exact processPage_write_status env p pdf ow s w hsome
      · have hst := (ih ((processPage env p pdf ow s).1)).2 w h
        rw [hst, processPage_state_status]

/-- Helper: every persisted write of the background run except the
final one has status PROCESSING. -/
theorem handleExtractionWrites_dropLast_processing (env : ProcessorEnv)
    (job : ExtractionJobData) :
    ∀ w ∈ ((handleExtractionWrites env job).1).dropLast,
      w.status = .processing := by
  intro w hw
  unfold handleExtractionWrites at hw
  simp only [] at hw
  rw [List.dropLast_concat] at hw
  rcases List.mem_append.mp hw with h | h
  · simp only [List.mem_cons, List.not_mem_nil, or_false] at h
    rcases h with h | h | h <;> subst h <;> rfl
  · have hst := (runPagesAux_status env job.filename
      (job.overwrite.getD false) _ _).2 w h
    exact hst.trans rfl

/-- Helper: the run's write sequence ends with its COMPLETED final
state. -/
theorem handleExtractionWrites_getLast (env : ProcessorEnv)
    (job : ExtractionJobData) :
    ((handleExtractionWrites env job).1).getLast? =
      some (handleExtractionWrites env job).2 ∧
    (handleExtractionWrites env job).2.status = .completed := by
  constructor
  · conv_lhs => unfold handleExtractionWrites
    simp only []
    rw [List.getLast?_concat]
    rfl
  · rfl

/-- Helper: the last element of a proper prefix is an element of
`dropLast`. -/
theorem getLast?_take_mem_dropLast {α : Type} (l : List α) (m : Nat)
    (h1 : 1 ≤ m) (h2 : m < l.length) :
    ∃ w, (l.take m).getLast? = some w ∧ w ∈ l.dropLast := by
  have hne : l.take m ≠ [] := by
    intro hnil
    have hlen := congrArg List.length hnil
    simp only [List.length_take, List.length_nil] at hlen
    omega
  cases hw : (l.take m).getLast? with
  | none => exact absurd (List.getLast?_eq_none_iff.mp hw) hne
  | some w =>
    refine ⟨w, rfl, ?_⟩
    have hmem : w ∈ l.take m :=
      List.mem_of_mem_getLast? (by rw [hw]; rfl)
    have heq : l.take m = (l.dropLast).take m := by
      rw [List.dropLast_eq_take, List.take_take]
      congr 1
      omega
    rw [heq] at hmem
    exact List.take_subset m l.dropLast hmem


/-- C3 (amended): interposing `Stop()` after any persisted write of a
running job (strictly before the final one) immediately persists
STOPPED with an end timestamp — but the background page loop observes
no cancellation flag: every remaining write of the run still follows
unchanged (each page write restoring status PROCESSING), the
remaining-write suffix is nonempty, and the run ends by persisting a
COMPLETED state over the STOPPED one. -/
theorem stop_not_observed_by_running_job (env : ProcessorEnv)
    (job : ExtractionJobData) (m : Nat) (h1 : 1 ≤ m)
    (h2 : m < ((handleExtractionWrites env job).1).length) :
    ∃ w st,
      (((handleExtractionWrites env job).1).take m).getLast? = some w ∧
      stopExtraction (some w) = (.stoppedOk, some st) ∧
      st.status = .stopped ∧ st.endTimeSet = true ∧
      persistedWithStopAfter env job m =
        ((handleExtractionWrites env job).1).take m ++ [st] ++
          ((handleExtractionWrites env job).1).drop m ∧
      ((handleExtractionWrites env job).1).drop m ≠ [] ∧
      (((handleExtractionWrites env job).1).drop m).getLast? =
        some (handleExtractionWrites env job).2 ∧
      (handleExtractionWrites env job).2.status = .completed := by
  obtain ⟨w, hw, hmem⟩ := getLast?_take_mem_dropLast
    ((handleExtractionWrites env job).1) m h1 h2
  have hwproc : w.status = .processing :=
    handleExtractionWrites_dropLast_processing env job w hmem
  have hstop : stopExtraction (some w) =
      (.stoppedOk, some { w with
        status := .stopped
        endTimeSet := true
        logs := w.logs + 1 }) := by
    unfold stopExtraction
    simp only []
    rw [if_pos hwproc]
  have hdropne : ((handleExtractionWrites env job).1).drop m ≠ [] := by
    intro hnil
    rw [List.drop_eq_nil_iff] at hnil
    omega
  refine ⟨w, _, hw, hstop, rfl, rfl, ?_, hdropne, ?_,
    (handleExtractionWrites_getLast env job).2⟩
  · unfold persistedWithStopAfter
    simp only [hw, hstop]
  · have hlast := (handleExtractionWrites_getLast env job).1
    rw [← List.take_append_drop m ((handleExtractionWrites env job).1),
      List.getLast?_append_of_ne_nil _ hdropne] at hlast
    exact hlast

/-- C3 (witness): the amended statement at a concrete environment and
job, stopping after the fourth persisted write (page 1 in flight). -/
theorem stop_not_observed_by_running_job_witness :
    1 ≤ 4 ∧ 4 < ((handleExtractionWrites env6 jobStart3).1).length ∧
    (∃ w st,
      (((handleExtractionWrites env6 jobStart3).1).take 4).getLast? =
        some w ∧
      stopExtraction (some w) = (.stoppedOk, some st) ∧
      st.status = .stopped ∧ st.endTimeSet = true ∧
      persistedWithStopAfter env6 jobStart3 4 =
        ((handleExtractionWrites env6 jobStart3).1).take 4 ++ [st] ++
          ((handleExtractionWrites env6 jobStart3).1).drop 4 ∧
      ((handleExtractionWrites env6 jobStart3).1).drop 4 ≠ [] ∧
      (((handleExtractionWrites env6 jobStart3).1).drop 4).getLast? =
        some (handleExtractionWrites env6 jobStart3).2 ∧
      (handleExtractionWrites env6 jobStart3).2.status = .completed) :=
  ⟨by norm_num, by decide,
    stop_not_observed_by_running_job env6 jobStart3 4 (by norm_num)
      (by decide)⟩

/-- C3 (counterexample): the background run of `jobStart3` makes 7
persisted writes; interposing `Stop()` after the fourth write (while
page 1 is in flight) persists STOPPED — but three further writes
follow: the saves for pages 2 and 3 (restoring status PROCESSING and
advancing the cursor to 1 then 2) and the final COMPLETED write, so the
final persisted status is COMPLETED, not STOPPED, refuting "no page
mutation is ever applied after the in-flight page completes". -/
theorem stop_mid_run_counterexample :
    ((handleExtractionWrites env6 jobStart3).1).length = 7 ∧
    (persistedWithStopAfter env6 jobStart3 4).map
        ExtractionState.status =
      [.processing, .processing, .processing, .processing, .stopped,
       .processing, .processing, .completed] ∧
    ((persistedWithStopAfter env6 jobStart3 4).drop 5).map
        ExtractionState.processedPages = [1, 2, 3] ∧
    ((persistedWithStopAfter env6 jobStart3 4).getLast?).map
        ExtractionState.status = some .completed :=
  ⟨rfl, rfl, rfl, rfl⟩

end MRCS
